import Mathlib

/-!
Verification development for the credential-context and reconciliation
engine of the repository (AWS utility modules): security-group rule
listing and matching, CORS rule listing, KMS key-policy principal
reconciliation, secret key/value lifecycle, credential-source selection,
and the environment save/restore discipline of the credential scope.

Python dictionaries read with .get are modelled with Option fields
(absent key = none); Python truthiness of strings is modelled explicitly;
fallible paths return Option or Except.
-/

/-! ### Security group rules (src/auto/utils/aws.py) -/

/-- Shape of an existing security group rule as returned by the boto3 ec2
describe rules call (fields read with .get, hence Option). -/
structure SGRule where
  ipProtocol : Option String
  fromPort : Option Int
  toPort : Option Int
  isEgress : Option Bool
  cidrIpv4 : Option String
  description : Option String
deriving DecidableEq, Repr

/-- One element of the IpRanges list of a desired rule. -/
structure SGIpRange where
  cidrIp : Option String
  description : Option String
deriving DecidableEq, Repr

/-- Shape of a desired security group rule as passed to the boto3
authorize ingress/egress calls. -/
structure SGDesiredRule where
  ipProtocol : Option String
  fromPort : Option Int
  toPort : Option Int
  ipRanges : Option (List SGIpRange)
deriving DecidableEq, Repr

/-- The comparison `outbound == existing_rule.get("IsEgress")` from the
source: a Python bool compared against a possibly absent value (absent
compares unequal to a bool). -/
def matchesDirection (outbound : Bool) (r : SGRule) : Bool :=
  match r.isEgress with
  | some b => outbound == b
  | none => false

/-- One loop-body check of Aws.find_security_group_rule: protocol, from
port, to port and direction must agree, and the desired rule must carry
exactly one ip range whose CidrIp equals the existing CidrIpv4. -/
def ruleMatches (desired : SGDesiredRule) (outbound : Bool) (r : SGRule) : Bool :=
  desired.ipProtocol == r.ipProtocol &&
  desired.fromPort == r.fromPort &&
  desired.toPort == r.toPort &&
  matchesDirection outbound r &&
  (match desired.ipRanges with
   | some [range] => range.cidrIp == r.cidrIpv4
   | _ => false)

/-- Loop of Aws.find_security_group_rule over the existing rules,
returning the first rule that fully matches. -/
def find_security_group_rule_loop (desired : SGDesiredRule) (outbound : Bool) :
    List SGRule → Option SGRule
  | [] => none
  | r :: rest =>
    if ruleMatches desired outbound r then some r
    else find_security_group_rule_loop desired outbound rest

/-- Aws.find_security_group_rule: the existing rules argument may be None
(the Python code iterates over `existing or []`). -/
def find_security_group_rule (existing : Option (List SGRule))
    (desired : SGDesiredRule) (outbound : Bool) : Option SGRule :=
  find_security_group_rule_loop desired outbound (existing.getD [])

/-- Aws.get_security_group_rules: the response is the SecurityGroupRules
list of the describe call (none when the response or the key is falsy);
an empty response list, and an empty direction-filtered list, both give
none. -/
def get_security_group_rules (response : Option (List SGRule))
    (outbound : Bool) : Option (List SGRule) :=
  match response with
  | none => none
  | some rules =>
    if rules.isEmpty then none
    else
      let filtered := rules.filter (fun r => matchesDirection outbound r)
      if filtered.isEmpty then none else some filtered

/-- Result of the boto3 get_bucket_cors call as observed by
Aws.get_cors_rules: either a response carrying an optional CORSRules
list, or a ClientError carrying an optional error code. -/
inductive CorsResult (α : Type) where
  | success (corsRules : Option (List α))
  | clientError (code : Option String)
deriving DecidableEq, Repr

/-- Aws.get_cors_rules: a present CORSRules list is returned as is; a
ClientError with code NoSuchCORSConfiguration yields the empty list; any
other outcome yields none. -/
def get_cors_rules {α : Type} : CorsResult α → Option (List α)
  | CorsResult.success (some rules) => some rules
  | CorsResult.success none => none
  | CorsResult.clientError code =>
    if code == some "NoSuchCORSConfiguration" then some [] else none

/-! ### KMS key policy (src/auto/utils/aws.py) -/

/-- One statement of a KMS key policy document: its Sid and its
Principal.AWS list. The regular-expression Sid matching of the source
(re.match on sid_pattern) is abstracted as a boolean predicate sidMatch
passed to the operations. -/
structure PolicyStatement where
  sid : String
  principals : List String
deriving DecidableEq, Repr

/-- Aws.get_kms_key_policy_principals: principals of the first statement
whose Sid matches; none when no statement matches (the Python function
falls off the loop and returns None). -/
def get_kms_key_policy_principals (statements : List PolicyStatement)
    (sidMatch : String → Bool) : Option (List String) :=
  (statements.find? (fun st => sidMatch st.sid)).map (fun st => st.principals)

/-- List output of the append loop of Aws.amend_kms_key_policy: each
additional role is appended to the (growing) principal list unless
already present there. -/
def amendPrincipalsList (current : List String) : List String → List String
  | [] => current
  | role :: rest =>
    if role ∈ current then amendPrincipalsList current rest
    else amendPrincipalsList (current ++ [role]) rest

/-- Count output of the same loop: the number of roles actually
appended. -/
def amendPrincipalsCount (current : List String) : List String → Nat
  | [] => 0
  | role :: rest =>
    if role ∈ current then amendPrincipalsCount current rest
    else amendPrincipalsCount (current ++ [role]) rest + 1

/-- Lexicographic code-point comparison of character sequences: the
string order used by the Python list sort in amend_kms_key_policy. -/
def chars_le : List Char → List Char → Bool
  | [], _ => true
  | _ :: _, [] => false
  | a :: as, b :: bs =>
    if a.toNat < b.toNat then true
    else if b.toNat < a.toNat then false
    else chars_le as bs

/-- Code-point lexicographic order on strings (Python string <=). -/
def string_le (a b : String) : Bool := chars_le a.data b.data

/-- In-place mutation of the matched statement: the first statement whose
Sid matches gets the given principal list. -/
def replace_first_principals (sidMatch : String → Bool)
    (newPrincipals : List String) : List PolicyStatement → List PolicyStatement
  | [] => []
  | st :: rest =>
    if sidMatch st.sid then { st with principals := newPrincipals } :: rest
    else st :: replace_first_principals sidMatch newPrincipals rest

/-- Aws.amend_kms_key_policy: appends the missing additional roles to the
principal list of the first Sid-matching statement, sorts that list, and
returns the mutated document with the count of roles actually added.
When no statement matches, the Python code crashes on a None membership
test; that path is modelled as none. -/
def amend_kms_key_policy (statements : List PolicyStatement)
    (sidMatch : String → Bool) (additionalRoles : List String) :
    Option (List PolicyStatement × Nat) :=
  match get_kms_key_policy_principals statements sidMatch with
  | none => none
  | some current =>
    let appended := amendPrincipalsList current additionalRoles
    let nadded := amendPrincipalsCount current additionalRoles
    let sortedPrincipals :=
      appended.insertionSort (fun a b => string_le a b = true)
    some (replace_first_principals sidMatch sortedPrincipals statements, nadded)

/-! ### Secret key/value lifecycle (src/auto/utils/aws.py) -/

/-- Python str.startswith, modelled on the character sequence. -/
def str_startswith (s p : String) : Bool := p.data.isPrefixOf s.data

/-- The sentinel prefix marking a deactivated secret value. -/
def DEACTIVATED_SECRET_VALUE_PREFIX : String := "DEACTIVATED:"

/-- Lookup of a key in the JSON object of a secret (dict.get). -/
def lookupKey (json : List (String × String)) (key : String) : Option String :=
  (json.find? (fun kv => kv.1 == key)).map (fun kv => kv.2)

/-- Assignment json[key] = value on the JSON object of a secret: replace
the value of an existing key in place, or append a new key. -/
def setKey : List (String × String) → String → String → List (String × String)
  | [], key, value => [(key, value)]
  | kv :: rest, key, value =>
    if kv.1 == key then (key, value) :: rest
    else kv :: setKey rest key value

/-- Aws.update_secret_key_value, over the fetched state of one secret
name: `json` is the parsed SecretString (none when the secret name does
not exist), `targetValue` is the new value (none deactivates), `confirm`
is the answer to the final yes_or_no prompt. Returns the boolean result
of the call and the state of the secret afterwards (unchanged unless the
update_secret write ran). -/
def update_secret_key_value (json : Option (List (String × String)))
    (key : String) (targetValue : Option String) (confirm : Bool) :
    Bool × Option (List (String × String)) :=
  match json with
  | none => (false, none)
  | some j =>
    match targetValue, lookupKey j key with
    | none, none => (false, some j)
    | none, some current =>
      if str_startswith current DEACTIVATED_SECRET_VALUE_PREFIX then (false, some j)
      else if confirm then
        (true, some (setKey j key (DEACTIVATED_SECRET_VALUE_PREFIX ++ current)))
      else (false, some j)
    | some v, none =>
      if confirm then (true, some (setKey j key v)) else (false, some j)
    | some v, some current =>
      if current == v then (false, some j)
      else if confirm then (true, some (setKey j key v)) else (false, some j)

/-! ### Credential context (src/auto/utils/aws_context.py) -/

/-- Process environment: a map from variable name to optional value. -/
def Env : Type := String → Option String

/-- Point update of the environment (assignment for some value, removal
for none). -/
def updateEnv (env : Env) (key : String) (value : Option String) : Env :=
  fun x => if x = key then value else env x

/-- The AWS credential environment variables cleared and restored by
AwsContext.establish_credentials, in source order. -/
def awsCredentialEnvironmentVariables : List String :=
  ["AWS_ACCESS_KEY_ID", "AWS_CONFIG_FILE", "AWS_DEFAULT_REGION",
   "AWS_REGION", "AWS_SECRET_ACCESS_KEY", "AWS_SESSION_TOKEN",
   "AWS_SHARED_CREDENTIALS_FILE"]

/-- Saved dictionary built by unset_environ of establish_credentials: it
pops each variable in turn, recording the popped value (the loop also
points variables ending in _FILE at /dev/null, which the recursive call
threads through). -/
def unset_environ_saved : List String → Env → List (String × Option String)
  | [], _ => []
  | key :: rest, env =>
    (key, env key) ::
      unset_environ_saved rest
        (if key.endsWith "_FILE" then updateEnv env key (some "/dev/null")
         else updateEnv env key none)

/-- Environment produced by unset_environ of establish_credentials: each
variable is removed, except that variables ending in _FILE are pointed at
/dev/null. -/
def unset_environ_env : List String → Env → Env
  | [], env => env
  | key :: rest, env =>
    unset_environ_env rest
      (if key.endsWith "_FILE" then updateEnv env key (some "/dev/null")
       else updateEnv env key none)

/-- restore_environ of establish_credentials: writes back each saved
value in order, removing variables whose saved value was absent. -/
def restore_environ : List (String × Option String) → Env → Env
  | [], env => env
  | kv :: rest, env => restore_environ rest (updateEnv env kv.1 kv.2)

/-- The environment seen after the scope of establish_credentials exits:
the finally clause runs restore_environ on the dictionary saved at entry,
whatever environment state (envAtExit) the setup code and the body left
behind on any exit path (normal return, exception, interrupt). -/
def establish_credentials_exit_env (envAtEntry envAtExit : Env) : Env :=
  restore_environ
    (unset_environ_saved awsCredentialEnvironmentVariables envAtEntry) envAtExit

/-- Constructor arguments of AwsContext (each may be absent). -/
structure AwsContextArgs where
  accessKeyId : Option String
  secretAccessKey : Option String
  region : Option String
  sessionToken : Option String
  credentialsDir : Option String
deriving DecidableEq, Repr

/-- Python truthiness of an optional string: present and nonempty. -/
def pyTruthy : Option String → Bool
  | none => false
  | some s => !(s == "")

/-- Filesystem facts consulted by establish_credentials. -/
structure FsView where
  isDir : String → Bool
  isFile : String → Bool

/-- The credential source selected by establish_credentials. -/
inductive CredentialSource where
  | explicitKeys (accessKeyId secretAccessKey : String)
  | sessionToken (token : String)
  | credentialsDirectory (dir : String)
deriving DecidableEq, Repr

/-- The source-selection chain of establish_credentials (lines 124-140 of
aws_context.py): explicit access key id and secret first, then a session
token, then the credentials directory (which must exist and contain a
credentials file), otherwise the no-credentials error. -/
def select_credentials_source (args : AwsContextArgs) (fs : FsView) :
    Except String CredentialSource :=
  if pyTruthy args.accessKeyId && pyTruthy args.secretAccessKey then
    Except.ok (CredentialSource.explicitKeys
      (args.accessKeyId.getD "") (args.secretAccessKey.getD ""))
  else if pyTruthy args.sessionToken then
    Except.ok (CredentialSource.sessionToken (args.sessionToken.getD ""))
  else if pyTruthy args.credentialsDir then
    let dir := args.credentialsDir.getD ""
    if !(fs.isDir dir) then
      Except.error ("AWS credentials directory not found: " ++ dir)
    else if !(fs.isFile (dir ++ "/credentials")) then
      Except.error ("AWS credentials file not found: " ++ dir ++ "/credentials")
    else Except.ok (CredentialSource.credentialsDirectory dir)
  else Except.error "No AWS credentials specified."

/-! ### Sensitivity heuristic should_obfuscate (src/auto/utils/misc_utils.py) -/

/-- Case-insensitive character comparison (re.IGNORECASE). -/
def ciCharEq (a b : Char) : Bool := a.toLower == b.toLower

/-- Case-insensitive test that tok occurs at the head of s. -/
def ciHeadMatch : List Char → List Char → Bool
  | [], _ => true
  | _ :: _, [] => false
  | t :: ts, c :: cs => ciCharEq t c && ciHeadMatch ts cs

/-- The negative lookahead (?!_key_id$) after crypt: succeeds-to-exclude
when the remainder reads _key_id (case-insensitively) followed by the end
of the string or by a final newline (Python $ semantics). -/
def cryptLookaheadExcludes (rest : List Char) : Bool :=
  ciHeadMatch "_key_id".data rest &&
  (rest.drop 7 == [] || rest.drop 7 == ['\n'])

/-- The alternation group of the should_obfuscate regular expression,
tried at one position of the key. -/
def obfuscateTokenAt (s : List Char) : Bool :=
  ciHeadMatch "secret".data s ||
  ciHeadMatch "secrt".data s ||
  ciHeadMatch "password".data s ||
  ciHeadMatch "passwd".data s ||
  (ciHeadMatch "crypt".data s && !(cryptLookaheadExcludes (s.drop 5)))

/-- The scan of re.match over the leading .* of the pattern: the group
may start after any run of non-newline characters (a dot does not match
a newline), so the scan stops at the first newline. -/
def obfuscateScan : List Char → Bool
  | [] => obfuscateTokenAt []
  | c :: rest =>
    obfuscateTokenAt (c :: rest) ||
    (!(c == '\n') && obfuscateScan rest)

/-- should_obfuscate from misc_utils.py: whether the key matches the
sensitivity regular expression. -/
def should_obfuscate (key : String) : Bool := obfuscateScan key.data

/-- Spec-worded sensitivity condition, for comparison with the source
function: the key contains secret, password, passwd or crypt
case-insensitively, an occurrence of crypt immediately followed by
_key_id at the end of the name not counting. Written from the words of
the claim, not from the code. -/
def spec_sensitive_four : List Char → Bool
  | [] => false
  | c :: rest =>
    ciHeadMatch "secret".data (c :: rest) ||
    ciHeadMatch "password".data (c :: rest) ||
    ciHeadMatch "passwd".data (c :: rest) ||
    (ciHeadMatch "crypt".data (c :: rest) &&
      !(ciHeadMatch "_key_id".data ((c :: rest).drop 5) &&
        (c :: rest).drop 12 == [])) ||
    spec_sensitive_four rest

/-- Spec-worded sensitivity condition over a whole key name. -/
def spec_sensitive_condition (key : String) : Bool :=
  spec_sensitive_four key.data

/-- Amended spec-worded sensitivity condition: as spec_sensitive_condition
but with secrt added to the token list, matching the token list actually
present in the source regular expression, and the crypt carve-out also
tolerating a single trailing newline (Python end-of-pattern semantics). -/
def spec_sensitive_five : List Char → Bool
  | [] => false
  | c :: rest =>
    obfuscateTokenAt (c :: rest) || spec_sensitive_five rest

/-- Amended spec-worded condition over a whole key name. -/
def spec_sensitive_condition_amended (key : String) : Bool :=
  spec_sensitive_five key.data

/-! ### Theorems: security group rule matching -/

theorem matchesDirection_iff (outbound : Bool) (r : SGRule) :
    matchesDirection outbound r = true ↔ r.isEgress = some outbound := by
  cases h : r.isEgress with
  | none => simp [matchesDirection, h]
  | some b =>
    simp only [matchesDirection, h, beq_iff_eq, Option.some.injEq]
    exact eq_comm

theorem find_loop_eq_find? (desired : SGDesiredRule) (outbound : Bool)
    (l : List SGRule) :
    find_security_group_rule_loop desired outbound l =
      l.find? (ruleMatches desired outbound) := by
  induction l with
  | nil => rfl
  | cons r rest ih =>
    simp only [find_security_group_rule_loop]
    by_cases h : ruleMatches desired outbound r = true
    · rw [if_pos h, List.find?_cons_of_pos _ h]
    · rw [if_neg h, List.find?_cons_of_neg _ (by simp [h]), ih]

theorem ruleMatches_char (desired : SGDesiredRule) (range : SGIpRange)
    (outbound : Bool) (r : SGRule) (h : desired.ipRanges = some [range]) :
    ruleMatches desired outbound r = true ↔
      (desired.ipProtocol = r.ipProtocol ∧ desired.fromPort = r.fromPort ∧
       desired.toPort = r.toPort ∧ r.isEgress = some outbound ∧
       range.cidrIp = r.cidrIpv4) := by
  simp [ruleMatches, h, Bool.and_eq_true, matchesDirection_iff, and_assoc]

/-- C7: with a single-CIDR desired rule, find_security_group_rule finds a
rule exactly when protocol, from port, to port, direction flag and CIDR
all agree; the returned rule is one of the existing rules and satisfies
that characterization; the description fields of neither side influence
the match; an inbound existing rule never matches an outbound search nor
conversely; and when nothing matches the result is none, not an error. -/
theorem sg_rule_matching_C7 (l : List SGRule) (desired : SGDesiredRule)
    (range : SGIpRange) (outbound : Bool)
    (h : desired.ipRanges = some [range]) :
    (∀ r, ruleMatches desired outbound r = true ↔
      (desired.ipProtocol = r.ipProtocol ∧ desired.fromPort = r.fromPort ∧
       desired.toPort = r.toPort ∧ r.isEgress = some outbound ∧
       range.cidrIp = r.cidrIpv4))
    ∧ (∀ r, find_security_group_rule (some l) desired outbound = some r →
        r ∈ l ∧ ruleMatches desired outbound r = true)
    ∧ ((find_security_group_rule (some l) desired outbound).isSome ↔
        ∃ r ∈ l, ruleMatches desired outbound r = true)
    ∧ (∀ (r : SGRule) d1 d2,
        ruleMatches desired outbound ({ r with description := d1 } : SGRule) =
        ruleMatches desired outbound ({ r with description := d2 } : SGRule))
    ∧ (∀ r d1 d2,
        ruleMatches
          ({ desired with
              ipRanges := some [({ range with description := d1 } : SGIpRange)] } :
            SGDesiredRule) outbound r =
        ruleMatches
          ({ desired with
              ipRanges := some [({ range with description := d2 } : SGIpRange)] } :
            SGDesiredRule) outbound r)
    ∧ (∀ r, r.isEgress = some true → ruleMatches desired false r = false)
    ∧ (∀ r, r.isEgress = some false → ruleMatches desired true r = false)
    ∧ ((∀ r ∈ l, ruleMatches desired outbound r = false) →
        find_security_group_rule (some l) desired outbound = none) := by
  refine ⟨fun r => ruleMatches_char desired range outbound r h, ?_, ?_, ?_, ?_, ?_, ?_, ?_⟩
  · intro r hr
    simp only [find_security_group_rule, Option.getD_some, find_loop_eq_find?] at hr
    exact ⟨List.mem_of_find?_eq_some hr, List.find?_some hr⟩
  · simp [find_security_group_rule, find_loop_eq_find?]
  · intro r d1 d2
    simp [ruleMatches, matchesDirection]
  · intro r d1 d2
    simp [ruleMatches]
  · intro r hr
    simp [ruleMatches, matchesDirection, hr]
  · intro r hr
    simp [ruleMatches, matchesDirection, hr]
  · intro hnone
    simp only [find_security_group_rule, Option.getD_some, find_loop_eq_find?]
    simp only [List.find?_eq_none]
    intro x hx
    simp [hnone x hx]

/-- Witness for C7 at a concrete single-CIDR desired rule and a
one-element rule list. -/
theorem sg_rule_matching_C7_witness :
    (SGDesiredRule.mk (some "tcp") (some 22) (some 22)
        (some [SGIpRange.mk (some "0.0.0.0/0") none])).ipRanges =
      some [SGIpRange.mk (some "0.0.0.0/0") none] ∧
    ((find_security_group_rule
        (some [SGRule.mk (some "tcp") (some 22) (some 22) (some false)
          (some "0.0.0.0/0") (some "ssh")])
        (SGDesiredRule.mk (some "tcp") (some 22) (some 22)
          (some [SGIpRange.mk (some "0.0.0.0/0") none])) false).isSome ↔
      ∃ r ∈ [SGRule.mk (some "tcp") (some 22) (some 22) (some false)
          (some "0.0.0.0/0") (some "ssh")],
        ruleMatches (SGDesiredRule.mk (some "tcp") (some 22) (some 22)
          (some [SGIpRange.mk (some "0.0.0.0/0") none])) false r = true) := by
  refine ⟨rfl, ?_⟩
  exact (sg_rule_matching_C7
    [SGRule.mk (some "tcp") (some 22) (some 22) (some false)
      (some "0.0.0.0/0") (some "ssh")]
    (SGDesiredRule.mk (some "tcp") (some 22) (some 22)
      (some [SGIpRange.mk (some "0.0.0.0/0") none]))
    (SGIpRange.mk (some "0.0.0.0/0") none) false rfl).2.2.1

/-- C10: find_security_group_rule tolerates none in place of the list of
existing rules (the source iterates over existing or []) and returns
none rather than raising. -/
theorem find_rule_none_total_C10 (desired : SGDesiredRule) (outbound : Bool) :
    find_security_group_rule none desired outbound = none := rfl

/-! ### Theorems: listing rules, empty versus none (C1) -/

/-- Counterexample to C1 as stated: for a security group that exists and
has one inbound rule but no outbound rules, get_security_group_rules
returns none for the outbound direction, not the empty list; so the
existing-group-with-no-rules case is not signalled by an empty list. -/
theorem listRules_empty_direction_counterexample_C1 :
    get_security_group_rules
      (some [SGRule.mk (some "tcp") (some 22) (some 22) (some false)
        (some "0.0.0.0/0") none]) true = none ∧
    (none : Option (List SGRule)) ≠ some [] := by
  exact ⟨rfl, by decide⟩

/-- C1 amended: the two no-rules cases are distinguishable for
get_cors_rules (empty list when the bucket exists with no CORS rules,
none when the bucket lookup fails), but not for
get_security_group_rules, which returns none, never some [], whenever
the group has no rules of the requested direction. -/
theorem listRules_distinguishability_C1_amended :
    (∀ (rules : List SGRule) (outbound : Bool),
      (∀ r ∈ rules, matchesDirection outbound r = false) →
      get_security_group_rules (some rules) outbound = none)
    ∧ (∀ (rules : List SGRule) (outbound : Bool),
        get_security_group_rules (some rules) outbound ≠ some [])
    ∧ (∀ α, get_cors_rules
        (CorsResult.clientError (α := α) (some "NoSuchCORSConfiguration")) =
        some [])
    ∧ (∀ α code, code ≠ some "NoSuchCORSConfiguration" →
        get_cors_rules (CorsResult.clientError (α := α) code) = none) := by
  refine ⟨?_, ?_, ?_, ?_⟩
  · intro rules outbound hnone
    simp only [get_security_group_rules]
    by_cases hempty : rules.isEmpty
    · rw [if_pos hempty]
    · rw [if_neg hempty, if_pos]
      simp only [List.isEmpty_eq_true, List.filter_eq_nil_iff]
      intro r hr
      simp [hnone r hr]
  · intro rules outbound
    simp only [get_security_group_rules]
    by_cases hempty : rules.isEmpty
    · rw [if_pos hempty]; simp
    · rw [if_neg hempty]
      by_cases hf : (rules.filter (fun r => matchesDirection outbound r)).isEmpty
      · rw [if_pos hf]; simp
      · rw [if_neg hf]
        simp only [List.isEmpty_eq_true] at hf
        simp [hf]
  · intro α
    simp [get_cors_rules]
  · intro α code hcode
    simp only [get_cors_rules]
    rw [if_neg]
    simp only [beq_iff_eq]
    exact hcode

/-- Witness for C1 amended at a concrete one-rule group, a concrete CORS
client error pair, and a concrete non-CORS error code. -/
theorem listRules_distinguishability_C1_witness :
    get_security_group_rules
      (some [SGRule.mk (some "tcp") (some 443) (some 443) (some false)
        (some "10.0.0.0/16") none]) true = none ∧
    get_cors_rules
      (CorsResult.clientError (α := Nat) (some "NoSuchCORSConfiguration")) =
      some [] ∧
    get_cors_rules (CorsResult.clientError (α := Nat) (some "NoSuchBucket")) =
      none := by
  refine ⟨?_, ?_, ?_⟩
  · exact listRules_distinguishability_C1_amended.1
      [SGRule.mk (some "tcp") (some 443) (some 443) (some false)
        (some "10.0.0.0/16") none] true (by decide)
  · exact listRules_distinguishability_C1_amended.2.2.1 Nat
  · exact listRules_distinguishability_C1_amended.2.2.2 Nat
      (some "NoSuchBucket") (by decide)

/-! ### Theorems: KMS key policy reconciliation -/

theorem chars_le_total : ∀ as bs : List Char,
    chars_le as bs = true ∨ chars_le bs as = true
  | [], _ => Or.inl rfl
  | _ :: _, [] => Or.inr rfl
  | a :: as, b :: bs => by
    by_cases hab : a.toNat < b.toNat
    · exact Or.inl (by simp [chars_le, hab])
    · by_cases hba : b.toNat < a.toNat
      · exact Or.inr (by simp [chars_le, hba])
      · rcases chars_le_total as bs with h | h
        · exact Or.inl (by simp [chars_le, hab, hba, h])
        · exact Or.inr (by simp [chars_le, hba, hab, h])

theorem chars_le_trans : ∀ as bs cs : List Char,
    chars_le as bs = true → chars_le bs cs = true → chars_le as cs = true
  | [], _, _ => fun _ _ => rfl
  | _ :: _, [], _ => fun h1 _ => by simp [chars_le] at h1
  | _ :: _, _ :: _, [] => fun _ h2 => by simp [chars_le] at h2
  | a :: as, b :: bs, c :: cs => fun h1 h2 => by
    by_cases hab : a.toNat < b.toNat
    · by_cases hbc : b.toNat < c.toNat
      · have hac : a.toNat < c.toNat := by omega
        simp [chars_le, hac]
      · by_cases hcb : c.toNat < b.toNat
        · simp [chars_le, hbc, hcb] at h2
        · have hac : a.toNat < c.toNat := by omega
          simp [chars_le, hac]
    · by_cases hba : b.toNat < a.toNat
      · simp [chars_le, hab, hba] at h1
      · simp only [chars_le, if_neg hab, if_neg hba] at h1
        by_cases hbc : b.toNat < c.toNat
        · have hac : a.toNat < c.toNat := by omega
          simp [chars_le, hac]
        · by_cases hcb : c.toNat < b.toNat
          · simp [chars_le, hbc, hcb] at h2
          · simp only [chars_le, if_neg hbc, if_neg hcb] at h2
            have hac : ¬ a.toNat < c.toNat := by omega
            have hca : ¬ c.toNat < a.toNat := by omega
            simp only [chars_le, if_neg hac, if_neg hca]
            exact chars_le_trans as bs cs h1 h2

instance string_le_isTotal : IsTotal String (fun a b => string_le a b = true) :=
  ⟨fun a b => chars_le_total a.data b.data⟩

instance string_le_isTrans : IsTrans String (fun a b => string_le a b = true) :=
  ⟨fun a b c => chars_le_trans a.data b.data c.data⟩

theorem amendPrincipalsList_mem (Q : List String) :
    ∀ (acc : List String) (x : String),
      x ∈ amendPrincipalsList acc Q ↔ x ∈ acc ∨ x ∈ Q := by
  induction Q with
  | nil => intro acc x; simp [amendPrincipalsList]
  | cons q rest ih =>
    intro acc x
    simp only [amendPrincipalsList]
    by_cases hq : q ∈ acc
    · rw [if_pos hq, ih]
      simp only [List.mem_cons]
      constructor
      · rintro (h | h)
        · exact Or.inl h
        · exact Or.inr (Or.inr h)
      · rintro (h | rfl | h)
        · exact Or.inl h
        · exact Or.inl hq
        · exact Or.inr h
    · rw [if_neg hq, ih]
      simp only [List.mem_append, List.mem_cons, List.mem_singleton]
      tauto

theorem amendPrincipalsList_prefix (Q : List String) :
    ∀ acc : List String, acc <+: amendPrincipalsList acc Q := by
  induction Q with
  | nil => intro acc; exact List.prefix_rfl
  | cons q rest ih =>
    intro acc
    simp only [amendPrincipalsList]
    by_cases hq : q ∈ acc
    · rw [if_pos hq]; exact ih acc
    · rw [if_neg hq]
      exact (List.prefix_append acc [q]).trans (ih (acc ++ [q]))

theorem amendPrincipalsCount_eq (Q : List String) :
    ∀ acc : List String,
      amendPrincipalsCount acc Q = (Q.toFinset \ acc.toFinset).card := by
  induction Q with
  | nil => intro acc; simp [amendPrincipalsCount]
  | cons q rest ih =>
    intro acc
    simp only [amendPrincipalsCount, List.toFinset_cons]
    by_cases hq : q ∈ acc
    · rw [if_pos hq, ih acc]
      congr 1
      ext x
      simp only [Finset.mem_sdiff, Finset.mem_insert, List.mem_toFinset]
      constructor
      · rintro ⟨hx, hnx⟩
        exact ⟨Or.inr hx, hnx⟩
      · rintro ⟨rfl | hx, hnx⟩
        · exact absurd hq hnx
        · exact ⟨hx, hnx⟩
    · rw [if_neg hq, ih (acc ++ [q])]
      have h1 : (acc ++ [q]).toFinset = insert q acc.toFinset := by
        ext x
        simp only [List.mem_toFinset, List.mem_append, List.mem_singleton,
          Finset.mem_insert]
        tauto
      rw [h1, Finset.sdiff_insert]
      have h2 : insert q rest.toFinset \ acc.toFinset =
          insert q (rest.toFinset \ acc.toFinset) := by
        ext x
        simp only [Finset.mem_sdiff, Finset.mem_insert, List.mem_toFinset]
        constructor
        · rintro ⟨rfl | hx, hnx⟩
          · exact Or.inl rfl
          · exact Or.inr ⟨hx, hnx⟩
        · rintro (rfl | ⟨hx, hnx⟩)
          · exact ⟨Or.inl rfl, hq⟩
          · exact ⟨Or.inr hx, hnx⟩
      rw [h2]
      by_cases hqS : q ∈ rest.toFinset \ acc.toFinset
      · rw [Finset.card_erase_of_mem hqS, Finset.insert_eq_self.mpr hqS]
        have hpos : 0 < (rest.toFinset \ acc.toFinset).card :=
          Finset.card_pos.mpr ⟨q, hqS⟩
        omega
      · rw [Finset.erase_eq_of_not_mem hqS, Finset.card_insert_of_not_mem hqS]

theorem amendPrincipalsList_all_mem (Q : List String) :
    ∀ acc : List String, (∀ q ∈ Q, q ∈ acc) →
      amendPrincipalsList acc Q = acc := by
  induction Q with
  | nil => intro acc _; rfl
  | cons q rest ih =>
    intro acc hq
    simp only [amendPrincipalsList]
    rw [if_pos (hq q (List.mem_cons_self q rest))]
    exact ih acc (fun x hx => hq x (List.mem_cons_of_mem q hx))

theorem amendPrincipalsCount_all_mem (Q : List String) :
    ∀ acc : List String, (∀ q ∈ Q, q ∈ acc) →
      amendPrincipalsCount acc Q = 0 := by
  induction Q with
  | nil => intro acc _; rfl
  | cons q rest ih =>
    intro acc hq
    simp only [amendPrincipalsCount]
    rw [if_pos (hq q (List.mem_cons_self q rest))]
    exact ih acc (fun x hx => hq x (List.mem_cons_of_mem q hx))

theorem get_principals_replace_first (statements : List PolicyStatement)
    (sidMatch : String → Bool) (ps : List String) (st : PolicyStatement)
    (h : statements.find? (fun s => sidMatch s.sid) = some st) :
    get_kms_key_policy_principals
      (replace_first_principals sidMatch ps statements) sidMatch = some ps := by
  induction statements with
  | nil => simp [List.find?] at h
  | cons s0 rest ih =>
    by_cases h0 : sidMatch s0.sid = true
    · have hrepl : replace_first_principals sidMatch ps (s0 :: rest) =
          ({ s0 with principals := ps } : PolicyStatement) :: rest := by
        simp [replace_first_principals, h0]
      rw [hrepl]
      simp only [get_kms_key_policy_principals]
      rw [List.find?_cons_of_pos _ (by simpa using h0)]
      rfl
    · rw [List.find?_cons_of_neg _ (by simpa using h0)] at h
      have hrepl : replace_first_principals sidMatch ps (s0 :: rest) =
          s0 :: replace_first_principals sidMatch ps rest := by
        simp [replace_first_principals, h0]
      rw [hrepl]
      simp only [get_kms_key_policy_principals]
      rw [List.find?_cons_of_neg _ (by simpa using h0)]
      exact ih h

/-- C2: when some statement matches the Sid pattern and currently holds
principals P, amend_kms_key_policy with desired principals Q succeeds,
reports exactly the number of distinct members of Q missing from P, and
leaves the matched statement with a sorted principal list whose members
are exactly the union of P and Q; in particular every principal of P is
still present. -/
theorem kms_amend_additive_C2 (statements : List PolicyStatement)
    (sidMatch : String → Bool) (P Q : List String)
    (h : get_kms_key_policy_principals statements sidMatch = some P) :
    ∃ amended R,
      amend_kms_key_policy statements sidMatch Q =
        some (amended, (Q.toFinset \ P.toFinset).card) ∧
      get_kms_key_policy_principals amended sidMatch = some R ∧
      (∀ x, x ∈ R ↔ x ∈ P ∨ x ∈ Q) ∧
      R.Sorted (fun a b => string_le a b = true) ∧
      (∀ p ∈ P, p ∈ R) := by
  have hfind : ∃ st, statements.find? (fun s => sidMatch s.sid) = some st ∧
      st.principals = P := by
    simpa [get_kms_key_policy_principals, Option.map_eq_some'] using h
  obtain ⟨st, hst, hstP⟩ := hfind
  refine ⟨replace_first_principals sidMatch
      ((amendPrincipalsList P Q).insertionSort (fun a b => string_le a b = true)) statements,
    (amendPrincipalsList P Q).insertionSort (fun a b => string_le a b = true),
    ?_, ?_, ?_, ?_, ?_⟩
  · simp only [amend_kms_key_policy, h]
    rw [amendPrincipalsCount_eq]
  · exact get_principals_replace_first statements sidMatch _ st hst
  · intro x
    rw [List.mem_insertionSort]
    exact amendPrincipalsList_mem Q P x
  · exact List.sorted_insertionSort _ _
  · intro p hp
    rw [List.mem_insertionSort]
    exact (amendPrincipalsList_mem Q P p).mpr (Or.inl hp)

/-- Witness for C2 at the policy of Scenario B: current principals roleA
and roleB, desired roleB and roleC, one principal added. -/
theorem kms_amend_additive_C2_witness :
    get_kms_key_policy_principals [PolicyStatement.mk "kp" ["roleA", "roleB"]]
      (fun s => s == "kp") = some ["roleA", "roleB"] ∧
    (∃ amended R,
      amend_kms_key_policy [PolicyStatement.mk "kp" ["roleA", "roleB"]]
          (fun s => s == "kp") ["roleB", "roleC"] =
        some (amended,
          ((["roleB", "roleC"] : List String).toFinset \
            (["roleA", "roleB"] : List String).toFinset).card) ∧
      get_kms_key_policy_principals amended (fun s => s == "kp") = some R ∧
      (∀ x, x ∈ R ↔ x ∈ (["roleA", "roleB"] : List String) ∨
        x ∈ (["roleB", "roleC"] : List String)) ∧
      R.Sorted (fun a b => string_le a b = true) ∧
      (∀ p ∈ (["roleA", "roleB"] : List String), p ∈ R)) ∧
    ((["roleB", "roleC"] : List String).toFinset \
      (["roleA", "roleB"] : List String).toFinset).card = 1 :=
  ⟨rfl,
   kms_amend_additive_C2 [PolicyStatement.mk "kp" ["roleA", "roleB"]]
     (fun s => s == "kp") ["roleA", "roleB"] ["roleB", "roleC"] rfl,
   by decide⟩

/-- C9: even when every desired principal is already present, so that the
reported count is zero, amend_kms_key_policy still replaces the matched
principal list with its sorted permutation, so the document can be
mutated by a call that reports zero additions. -/
theorem kms_amend_sorts_C9 (statements : List PolicyStatement)
    (sidMatch : String → Bool) (P Q : List String)
    (h : get_kms_key_policy_principals statements sidMatch = some P)
    (hq : ∀ q ∈ Q, q ∈ P) :
    amend_kms_key_policy statements sidMatch Q =
      some (replace_first_principals sidMatch
        (P.insertionSort (fun a b => string_le a b = true)) statements, 0) ∧
    get_kms_key_policy_principals
      (replace_first_principals sidMatch
        (P.insertionSort (fun a b => string_le a b = true)) statements) sidMatch =
      some (P.insertionSort (fun a b => string_le a b = true)) := by
  have hfind : ∃ st, statements.find? (fun s => sidMatch s.sid) = some st ∧
      st.principals = P := by
    simpa [get_kms_key_policy_principals, Option.map_eq_some'] using h
  obtain ⟨st, hst, hstP⟩ := hfind
  constructor
  · simp only [amend_kms_key_policy, h, amendPrincipalsList_all_mem Q P hq,
      amendPrincipalsCount_all_mem Q P hq]
  · exact get_principals_replace_first statements sidMatch _ st hst

/-- Witness for C9: an unsorted principal list and a desired list wholly
contained in it; the call reports zero additions yet reorders the list. -/
theorem kms_amend_sorts_C9_witness :
    amend_kms_key_policy [PolicyStatement.mk "kp" ["b", "a"]]
      (fun s => s == "kp") ["a"] =
      some ([PolicyStatement.mk "kp" ["a", "b"]], 0) ∧
    (["a", "b"] : List String) ≠ ["b", "a"] := by
  constructor
  · have h := (kms_amend_sorts_C9 [PolicyStatement.mk "kp" ["b", "a"]]
      (fun s => s == "kp") ["b", "a"] ["a"] rfl (by decide)).1
    rw [h]
    decide
  · decide

/-! ### Theorems: secret key/value lifecycle -/

theorem lookupKey_setKey (j : List (String × String)) (key v : String) :
    lookupKey (setKey j key v) key = some v := by
  induction j with
  | nil =>
    show lookupKey [(key, v)] key = some v
    simp [lookupKey, List.find?]
  | cons kv rest ih =>
    simp only [setKey]
    by_cases h : kv.1 == key
    · rw [if_pos h]
      show lookupKey ((key, v) :: rest) key = some v
      simp only [lookupKey]
      rw [List.find?_cons_of_pos _ (by simp)]
      rfl
    · rw [if_neg h]
      show lookupKey (kv :: setKey rest key v) key = some v
      simp only [lookupKey]
      rw [List.find?_cons_of_neg _ (by simpa using h)]
      exact ih

theorem str_startswith_append (p x : String) :
    str_startswith (p ++ x) p = true := by
  simp only [str_startswith, String.data_append, List.isPrefixOf_iff_prefix]
  exact List.prefix_append _ _

/-- C5: when the secret exists and the first (confirmed) call targets the
value v, a second call with the same target value v returns false and
leaves the secret state untouched, whatever the answer to its
confirmation prompt: the update is idempotent. -/
theorem secret_update_idempotent_C5 (j : List (String × String))
    (key v : String) (confirm2 r1 : Bool)
    (s1 : Option (List (String × String)))
    (h : update_secret_key_value (some j) key (some v) true = (r1, s1)) :
    update_secret_key_value s1 key (some v) confirm2 = (false, s1) := by
  have hs1 : s1 = some (setKey j key v) ∨
      (s1 = some j ∧ lookupKey j key = some v) := by
    cases hcur : lookupKey j key with
    | none =>
      left
      have h1 : update_secret_key_value (some j) key (some v) true =
          (true, some (setKey j key v)) := by
        simp [update_secret_key_value, hcur]
      rw [h1] at h
      exact ((Prod.ext_iff.mp h).2).symm
    | some cur =>
      by_cases hv : cur = v
      · subst hv
        have h1 : update_secret_key_value (some j) key (some cur) true =
            (false, some j) := by
          simp [update_secret_key_value, hcur]
        rw [h1] at h
        exact Or.inr ⟨((Prod.ext_iff.mp h).2).symm, rfl⟩
      · left
        have h1 : update_secret_key_value (some j) key (some v) true =
            (true, some (setKey j key v)) := by
          simp [update_secret_key_value, hcur, hv]
        rw [h1] at h
        exact ((Prod.ext_iff.mp h).2).symm
  rcases hs1 with rfl | ⟨rfl, hl⟩
  · simp [update_secret_key_value, lookupKey_setKey]
  · simp [update_secret_key_value, hl]

/-- Witness for C5: updating RDS_HOST to new.db (confirmed) and then
calling again with the same target value returns false with no change. -/
theorem secret_update_idempotent_C5_witness :
    update_secret_key_value (some [("RDS_HOST", "old.db")]) "RDS_HOST"
      (some "new.db") true = (true, some [("RDS_HOST", "new.db")]) ∧
    update_secret_key_value (some [("RDS_HOST", "new.db")]) "RDS_HOST"
      (some "new.db") true = (false, some [("RDS_HOST", "new.db")]) := by
  constructor
  · decide
  · exact secret_update_idempotent_C5 [("RDS_HOST", "old.db")] "RDS_HOST"
      "new.db" true true (some [("RDS_HOST", "new.db")]) (by decide)

/-- C6: deactivating a key whose value already carries the DEACTIVATED
prefix is a no-op returning false for every confirmation answer; and a
confirmed deactivation of a not-yet-deactivated value v rewrites it to
DEACTIVATED: followed by v and returns true. -/
theorem secret_deactivation_C6 (j : List (String × String)) (key : String) :
    (∀ (x : String) (confirm : Bool),
      lookupKey j key = some (DEACTIVATED_SECRET_VALUE_PREFIX ++ x) →
      update_secret_key_value (some j) key none confirm = (false, some j))
    ∧ (∀ current : String,
        lookupKey j key = some current →
        str_startswith current DEACTIVATED_SECRET_VALUE_PREFIX = false →
        update_secret_key_value (some j) key none true =
          (true, some (setKey j key
            (DEACTIVATED_SECRET_VALUE_PREFIX ++ current)))) := by
  constructor
  · intro x confirm hcur
    simp [update_secret_key_value, hcur, str_startswith_append]
  · intro current hcur hnot
    simp [update_secret_key_value, hcur, hnot]

/-- Witness for C6: an already deactivated value is left alone with a
false result; a live value v becomes DEACTIVATED:v with a true result. -/
theorem secret_deactivation_C6_witness :
    update_secret_key_value (some [("K", "DEACTIVATED:v")]) "K" none true =
      (false, some [("K", "DEACTIVATED:v")]) ∧
    update_secret_key_value (some [("K", "v")]) "K" none true =
      (true, some [("K", "DEACTIVATED:v")]) := by
  constructor
  · exact (secret_deactivation_C6 [("K", "DEACTIVATED:v")] "K").1 "v" true
      (by decide)
  · have h := (secret_deactivation_C6 [("K", "v")] "K").2 "v" (by decide)
      (by decide)
    rw [h]
    decide

/-! ### Theorems: credential context environment restoration -/

theorem restore_environ_not_mem (saved : List (String × Option String)) :
    ∀ (g : Env) (v : String), v ∉ saved.map Prod.fst →
      restore_environ saved g v = g v := by
  induction saved with
  | nil => intro g v _; rfl
  | cons kv rest ih =>
    intro g v h
    simp only [List.map_cons, List.mem_cons] at h
    push_neg at h
    obtain ⟨h1, h2⟩ := h
    simp only [restore_environ]
    rw [ih _ v h2]
    simp [updateEnv, h1]

theorem restore_environ_mem (saved : List (String × Option String)) :
    ∀ (g : Env) (v : String) (w : Option String),
      (saved.map Prod.fst).Nodup → (v, w) ∈ saved →
      restore_environ saved g v = w := by
  induction saved with
  | nil => intro g v w _ hmem; simp at hmem
  | cons kv rest ih =>
    intro g v w hnodup hmem
    simp only [List.map_cons, List.nodup_cons] at hnodup
    obtain ⟨hk, hrest⟩ := hnodup
    rcases List.mem_cons.mp hmem with heq | hmem2
    · subst heq
      simp only [restore_environ]
      rw [restore_environ_not_mem rest _ v hk]
      simp [updateEnv]
    · have hne : v ≠ kv.1 := by
        intro hcontra
        exact hk (hcontra ▸ List.mem_map.mpr ⟨(v, w), hmem2, rfl⟩)
      simp only [restore_environ]
      exact ih _ v w hrest hmem2

theorem unset_environ_saved_keys (vars : List String) :
    ∀ env : Env, (unset_environ_saved vars env).map Prod.fst = vars := by
  induction vars with
  | nil => intro env; rfl
  | cons k rest ih =>
    intro env
    simp only [unset_environ_saved, List.map_cons, ih]

theorem unset_environ_saved_mem (vars : List String) :
    ∀ (env : Env) (v : String), vars.Nodup → v ∈ vars →
      (v, env v) ∈ unset_environ_saved vars env := by
  induction vars with
  | nil => intro env v _ hmem; simp at hmem
  | cons k rest ih =>
    intro env v hnodup hmem
    obtain ⟨hk, hrest⟩ := List.nodup_cons.mp hnodup
    simp only [unset_environ_saved]
    rcases List.mem_cons.mp hmem with rfl | hm
    · exact List.mem_cons_self _ _
    · have hne : v ≠ k := fun hcontra => hk (hcontra ▸ hm)
      have henv : (if k.endsWith "_FILE" then updateEnv env k (some "/dev/null")
          else updateEnv env k none) v = env v := by
        by_cases hfile : k.endsWith "_FILE" <;> simp [hfile, updateEnv, hne]
      have hmem3 := ih
        (if k.endsWith "_FILE" then updateEnv env k (some "/dev/null")
         else updateEnv env k none) v hrest hm
      rw [henv] at hmem3
      exact List.mem_cons_of_mem _ hmem3

/-- C3: whatever environment state the setup code and the body of
establish_credentials left behind at scope exit (normal return, raised
exception or interrupt alike), the finally clause restores each of the
seven AWS credential environment variables to exactly the value, or
absence, it had before scope entry. -/
theorem credentials_env_restored_C3 (env envAtExit : Env) (v : String)
    (h : v ∈ awsCredentialEnvironmentVariables) :
    establish_credentials_exit_env env envAtExit v = env v := by
  have hnodup : awsCredentialEnvironmentVariables.Nodup := by decide
  have hmem := unset_environ_saved_mem awsCredentialEnvironmentVariables env v
    hnodup h
  have hkeysnodup :
      ((unset_environ_saved awsCredentialEnvironmentVariables env).map
        Prod.fst).Nodup := by
    rw [unset_environ_saved_keys]
    exact hnodup
  exact restore_environ_mem _ envAtExit v (env v) hkeysnodup hmem

/-- Witness for C3: a concrete prior environment holding a region, a
scope-exit state holding leftovers in every variable, and the region
variable restored to its prior value. -/
theorem credentials_env_restored_C3_witness :
    "AWS_REGION" ∈ awsCredentialEnvironmentVariables ∧
    establish_credentials_exit_env
      (fun x => if x = "AWS_REGION" then some "us-east-1" else none)
      (fun _ => some "leftover") "AWS_REGION" =
      (fun x => if x = "AWS_REGION" then some "us-east-1" else none)
        "AWS_REGION" :=
  ⟨by decide,
   credentials_env_restored_C3
     (fun x => if x = "AWS_REGION" then some "us-east-1" else none)
     (fun _ => some "leftover") "AWS_REGION" (by decide)⟩

/-! ### Theorems: credential source selection (C4) -/

/-- Counterexample to C4 as stated: with no explicit key material and no
credentials directory at all, but a session token present, the source
selection succeeds with the session token instead of raising the
no-credentials error, so a session token is a third accepted credential
source. -/
theorem credentials_source_token_counterexample_C4 :
    select_credentials_source
      (AwsContextArgs.mk none none none (some "tok") none)
      (FsView.mk (fun _ => false) (fun _ => false)) =
      Except.ok (CredentialSource.sessionToken "tok") ∧
    select_credentials_source
      (AwsContextArgs.mk none none none (some "tok") none)
      (FsView.mk (fun _ => false) (fun _ => false)) ≠
      Except.error "No AWS credentials specified." ∧
    pyTruthy (AwsContextArgs.mk none none none (some "tok") none).accessKeyId =
      false ∧
    pyTruthy (AwsContextArgs.mk none none none
      (some "tok") none).credentialsDir = false := by
  refine ⟨rfl, ?_, rfl, rfl⟩
  intro hcontra
  simp [select_credentials_source, pyTruthy] at hcontra

/-- C4 amended: explicit key material (a nonempty access key id and
secret pair) always wins and the credentials directory is then ignored;
a session token alone is a third accepted source, tried after key
material and before the directory; when no key pair, no session token
and no directory is given the call raises the no-credentials error; and
a directory-sourced call whose directory exists but lacks a credentials
file is a hard failure. -/
theorem credentials_source_selection_C4_amended :
    (∀ (args : AwsContextArgs) (fs : FsView),
      pyTruthy args.accessKeyId = true → pyTruthy args.secretAccessKey = true →
      select_credentials_source args fs =
        Except.ok (CredentialSource.explicitKeys (args.accessKeyId.getD "")
          (args.secretAccessKey.getD "")))
    ∧ (∀ (args : AwsContextArgs) (fs fs2 : FsView) (dir dir2 : Option String),
        pyTruthy args.accessKeyId = true →
        pyTruthy args.secretAccessKey = true →
        select_credentials_source
          ({ args with credentialsDir := dir } : AwsContextArgs) fs =
        select_credentials_source
          ({ args with credentialsDir := dir2 } : AwsContextArgs) fs2)
    ∧ (∀ (args : AwsContextArgs) (fs : FsView),
        pyTruthy args.sessionToken = true →
        (pyTruthy args.accessKeyId = false ∨
          pyTruthy args.secretAccessKey = false) →
        select_credentials_source args fs =
          Except.ok (CredentialSource.sessionToken (args.sessionToken.getD "")))
    ∧ (∀ (args : AwsContextArgs) (fs : FsView),
        (pyTruthy args.accessKeyId = false ∨
          pyTruthy args.secretAccessKey = false) →
        pyTruthy args.sessionToken = false →
        pyTruthy args.credentialsDir = false →
        select_credentials_source args fs =
          Except.error "No AWS credentials specified.")
    ∧ (∀ (args : AwsContextArgs) (fs : FsView),
        (pyTruthy args.accessKeyId = false ∨
          pyTruthy args.secretAccessKey = false) →
        pyTruthy args.sessionToken = false →
        pyTruthy args.credentialsDir = true →
        fs.isDir (args.credentialsDir.getD "") = true →
        fs.isFile (args.credentialsDir.getD "" ++ "/credentials") = false →
        select_credentials_source args fs =
          Except.error ("AWS credentials file not found: " ++
            args.credentialsDir.getD "" ++ "/credentials")) := by
  refine ⟨?_, ?_, ?_, ?_, ?_⟩
  · intro args fs h1 h2
    simp [select_credentials_source, h1, h2]
  · intro args fs fs2 dir dir2 h1 h2
    simp [select_credentials_source, h1, h2]
  · intro args fs htok hkeys
    have hand : (pyTruthy args.accessKeyId &&
        pyTruthy args.secretAccessKey) = false := by
      rcases hkeys with h | h <;> simp [h]
    simp [select_credentials_source, hand, htok]
  · intro args fs hkeys htok hdir
    have hand : (pyTruthy args.accessKeyId &&
        pyTruthy args.secretAccessKey) = false := by
      rcases hkeys with h | h <;> simp [h]
    simp [select_credentials_source, hand, htok, hdir]
  · intro args fs hkeys htok hdir hisdir hnofile
    have hand : (pyTruthy args.accessKeyId &&
        pyTruthy args.secretAccessKey) = false := by
      rcases hkeys with h | h <;> simp [h]
    simp [select_credentials_source, hand, htok, hdir, hisdir, hnofile]

/-- Witness for C4 amended: explicit keys win over a configured
directory; an empty configuration raises the no-credentials error; a
directory without a credentials file is a hard failure. -/
theorem credentials_source_selection_C4_witness :
    select_credentials_source
      (AwsContextArgs.mk (some "AKIA") (some "SECRETKEY") none none
        (some "/dir"))
      (FsView.mk (fun _ => false) (fun _ => false)) =
      Except.ok (CredentialSource.explicitKeys "AKIA" "SECRETKEY") ∧
    select_credentials_source (AwsContextArgs.mk none none none none none)
      (FsView.mk (fun _ => false) (fun _ => false)) =
      Except.error "No AWS credentials specified." ∧
    select_credentials_source
      (AwsContextArgs.mk none none none none (some "/dir"))
      (FsView.mk (fun _ => true) (fun _ => false)) =
      Except.error ("AWS credentials file not found: " ++ "/dir" ++
        "/credentials") := by
  refine ⟨?_, ?_, ?_⟩
  · exact credentials_source_selection_C4_amended.1
      (AwsContextArgs.mk (some "AKIA") (some "SECRETKEY") none none
        (some "/dir"))
      (FsView.mk (fun _ => false) (fun _ => false)) rfl rfl
  · exact credentials_source_selection_C4_amended.2.2.2.1
      (AwsContextArgs.mk none none none none none)
      (FsView.mk (fun _ => false) (fun _ => false)) (Or.inl rfl) rfl rfl
  · exact credentials_source_selection_C4_amended.2.2.2.2
      (AwsContextArgs.mk none none none none (some "/dir"))
      (FsView.mk (fun _ => true) (fun _ => false)) (Or.inl rfl) rfl rfl rfl rfl

/-! ### Theorems: sensitivity heuristic should_obfuscate (C8) -/

/-- Counterexample to C8 as stated: the key secrt is matched by the
source regular expression (its token list also contains secrt), yet it
contains none of secret, password, passwd or crypt, so the
four-substring characterization of the claim is false for it. -/
theorem should_obfuscate_secrt_counterexample_C8 :
    should_obfuscate "secrt" = true ∧
    spec_sensitive_condition "secrt" = false := by
  constructor <;> decide

theorem obfuscateScan_no_newline (s : List Char) :
    '\n' ∉ s → obfuscateScan s = spec_sensitive_five s := by
  induction s with
  | nil => intro _; decide
  | cons c rest ih =>
    intro h
    have hc : (c == '\n') = false := by
      simp only [beq_eq_false_iff_ne, ne_eq]
      intro hh
      exact h (by rw [hh]; exact List.mem_cons_self _ _)
    simp only [obfuscateScan, spec_sensitive_five, hc, Bool.not_false,
      Bool.true_and]
    rw [ih (fun hh => h (List.mem_cons_of_mem c hh))]

/-- C8 amended: for every key name free of newline characters,
should_obfuscate returns true exactly when the name contains secret,
secrt, password, passwd or crypt case-insensitively, an occurrence of
crypt immediately followed by _key_id at the end of the name (allowing
one final newline) not counting; the token secrt is part of the source
token list although the claim omits it, and the scan of the regular
expression never starts past a newline, which is why newline-free keys
are the ones characterized by containment. In particular the two cited
evaluations hold: s3.encrypt_key_id is not sensitive, RDS_PASSWORD is. -/
theorem should_obfuscate_C8_amended (key : String)
    (h : '\n' ∉ key.data) :
    (should_obfuscate key = true ↔
      spec_sensitive_condition_amended key = true) ∧
    should_obfuscate "s3.encrypt_key_id" = false ∧
    should_obfuscate "RDS_PASSWORD" = true := by
  refine ⟨?_, by decide, by decide⟩
  rw [should_obfuscate, spec_sensitive_condition_amended,
    obfuscateScan_no_newline key.data h]

/-- Witness for C8 amended at the key RDS_PASSWORD. -/
theorem should_obfuscate_C8_witness :
    '\n' ∉ ("RDS_PASSWORD" : String).data ∧
    (should_obfuscate "RDS_PASSWORD" = true ↔
      spec_sensitive_condition_amended "RDS_PASSWORD" = true) :=
  ⟨by decide, (should_obfuscate_C8_amended "RDS_PASSWORD" (by decide)).1⟩
